import Mathlib

/-!
Verification of the `util.py` migration-helper library (`src/util/util.py`)
of the upgrade-util repository, against the claims of its specification.

The relevant parts of the source are shallowly embedded below: each SQL-emitting
procedure becomes an explicit state-passing Lean function over list-of-row models
of the framework's metadata tables (`ir_module_module`, `ir_model_data`,
`ir_model_constraint`, `ir_model_relation`, `ir_translation`,
`ir_module_module_dependency`, ...).  Fallible code (Python exceptions /
database errors) returns `Except`.  A few structural claims about the library
as a whole (exception handlers, transaction control, function signatures,
module-level mutable state) are settled against syntactic inventories that
enumerate, straight from the source text, every site of the relevant kind.
-/

set_option maxRecDepth 10000

/-- Python's `str.startswith` / SQL `LIKE 'p%'` (a kernel-reducing
reimplementation of `String.startsWith`). -/
def strStartsWith (s p : String) : Bool := p.data.isPrefixOf s.data

/-- The `_INSTALLED_MODULE_STATES` tuple of `util.py`. -/
def installedModuleStates : List String := ["installed", "to install", "to upgrade"]

/-! ## Rows of the metadata tables -/

/-- A row of `ir_module_module` (the columns `util.py` reads or writes). -/
structure ModRow where
  id : Nat
  name : String
  state : String
  demo : Option Bool
  autoInstall : Bool
  deriving Repr, DecidableEq

/-- A row of `ir_module_module_dependency`. -/
structure DepRow where
  moduleId : Nat
  name : String
  autoInstallRequired : Bool
  deriving Repr, DecidableEq

/-- A row of `ir_model_data`. -/
structure IMDRow where
  id : Nat
  module : String
  name : String
  model : String
  resId : Nat
  noupdate : Bool
  deriving Repr, DecidableEq

/-- A row of `ir_model_constraint` or `ir_model_relation`: an entry name owned
by a module (the `module` column is the numeric id of the owning module). -/
structure NamedRow where
  module : Nat
  name : String
  deriving Repr, DecidableEq

/-- A row of `ir_translation` (the columns `util.py`'s module operations touch). -/
structure TransRow where
  id : Nat
  module : String
  name : String
  deriving Repr, DecidableEq

/-- A row of `ir_ui_view` (id and the optional `key` column). -/
structure ViewRow where
  id : Nat
  key : Option String
  deriving Repr, DecidableEq

/-- The database state seen by the module-level operations of `util.py`.
The two flags model the `column_exists` schema probes of the source
(`ir_ui_view.key`, `ir_module_module_dependency.auto_install_required`). -/
structure DB where
  modules : List ModRow
  deps : List DepRow
  imd : List IMDRow
  constraints : List NamedRow
  relations : List NamedRow
  translations : List TransRow
  views : List ViewRow
  hasViewKeyColumn : Bool
  hasAutoInstallRequired : Bool
  deriving Repr, DecidableEq

/-! ## Simple query helpers -/

/-- `modules_installed(cr, *modules)`: count of rows whose name is in `mods`
and whose state is an installed state equals the number of requested modules. -/
def modules_installed (db : DB) (mods : List String) : Bool :=
  (db.modules.filter (fun m =>
    mods.contains m.name && installedModuleStates.contains m.state)).length = mods.length

/-! ## Structural inventory: exception handlers (claim C1)

Every `try/except` of `util.py`, in source order.  `coversDbExceptions` says
whether the caught class includes the psycopg2 database-error classes;
`bodyExecutesSql` says whether the guarded body runs any SQL statement, i.e.
whether a database error can actually be raised inside the `try` block. -/

structure ExcHandlerSite where
  function : String
  exceptionClass : String
  coversDbExceptions : Bool
  bodyExecutesSql : Bool
  fallback : String
  deriving Repr, DecidableEq

/-- All exception handlers of `util.py`, from the source text. -/
def excHandlerSites : List ExcHandlerSite := [
  ⟨"<module import>", "ImportError", false, false, "import openerp instead of odoo"⟩,
  ⟨"<module import>", "ImportError", false, false, "import tools from openerp instead of odoo"⟩,
  ⟨"<module import>", "ImportError", false, false, "take Environment.manage from openerp"⟩,
  ⟨"<module import>", "ImportError", false, false, "fall back to a no-op manage_env"⟩,
  ⟨"<module import>", "NameError", false, false, "define basestring on python3"⟩,
  ⟨"remove_field", "Exception", true, false, "skip a mail alias whose alias_defaults does not eval"⟩,
  ⟨"move_field_to_module", "psycopg2.IntegrityError", true, true,
    "delete the conflicting ir_model_data row"⟩,
  ⟨"rename_field", "psycopg2.IntegrityError", true, true,
    "rename the pre-existing conflicting field to <new>_custom and retry"⟩,
  ⟨"rename_field", "psycopg2.IntegrityError", true, true,
    "suffix the xmlid name with the field id and retry"⟩]

/-- A handler can intercept a database error only if its class covers the
database-error classes and its body actually executes SQL. -/
def catchesDbError (s : ExcHandlerSite) : Bool :=
  s.coversDbExceptions && s.bodyExecutesSql

/-- The three rename-conflict fallback behaviours named by the specification. -/
def renameConflictFallbacks : List String :=
  ["delete the conflicting ir_model_data row",
   "rename the pre-existing conflicting field to <new>_custom and retry",
   "suffix the xmlid name with the field id and retry"]

/-! ## Structural inventory: transaction control and execution mechanism (claim C7)

Every site of `util.py` that does anything to the transaction or runs SQL
through something other than a plain synchronous `cr.execute` on the cursor the
function was given.  Modelled from the spec for the two helpers that live
outside `src`: `savepoint` (from `.pg`) wraps a block in a `SAVEPOINT` and
rolls back to it when the block raises, and `parallel_execute` (from `.pg`) is,
in the spec's words, "the only parallelism present": it runs the given queries
in parallel, hence on connections other than the given cursor.  There is no
`commit()` and no full-transaction `rollback()` anywhere in `util.py`. -/

inductive TxnKind where
  | commitTxn
  | rollbackTxn
  | savepointRollback
  | parallelDispatch
  | auxiliaryCursor
  deriving Repr, DecidableEq

structure TxnSite where
  function : String
  kind : TxnKind
  deriving Repr, DecidableEq

/-- All transaction-control / non-plain-execution sites of `util.py`, in source
order: the `savepoint(cr)` context managers of `move_field_to_module` and
`rename_field` (twice), the `parallel_execute` dispatches of `remove_field`
(attachment cleanup) and `change_field_selection_values`, and the auxiliary
named server-side cursor `cr._cnx.cursor("fetch_binary")` of
`convert_binary_field_to_attachment`. -/
def txnSites : List TxnSite := [
  ⟨"move_field_to_module", .savepointRollback⟩,
  ⟨"rename_field", .savepointRollback⟩,
  ⟨"rename_field", .savepointRollback⟩,
  ⟨"remove_field", .parallelDispatch⟩,
  ⟨"change_field_selection_values", .parallelDispatch⟩,
  ⟨"convert_binary_field_to_attachment", .auxiliaryCursor⟩]

/-- Claim C7 as stated: every statement runs synchronously on the given cursor
and the only transaction mechanics are the savepoint rollbacks. -/
def allSqlSynchronousOnGivenCursor : Bool :=
  txnSites.all (fun s => s.kind == TxnKind.savepointRollback)

/-! ## Structural inventory: public functions and signatures (claim C2) -/

structure FuncSig where
  name : String
  takesCursorFirst : Bool
  returnsNone : Bool
  deriving Repr, DecidableEq

/-- Every module-level function of `util.py`, in source order, with whether its
first parameter is the database cursor and whether every return path yields
`None`.  (`main` takes a callback and opens its own cursor; `force_install_module`
returns `states.get(module)`; `no_fiscal_lock` is a context manager, so calling
it returns a context-manager object.  The aliases `module_installed = ...` style
assignments `make_field_company_dependent` and `delete_model` are not separate
functions and are not listed.) -/
def apiFunctions : List FuncSig := [
  ⟨"main", false, true⟩,
  ⟨"is_saas", true, false⟩,
  ⟨"dbuuid", true, false⟩,
  ⟨"dispatch_by_dbuuid", true, true⟩,
  ⟨"ensure_m2o_func_field_data", true, true⟩,
  ⟨"uniq_tags", true, true⟩,
  ⟨"modules_installed", true, false⟩,
  ⟨"module_installed", true, false⟩,
  ⟨"uninstall_module", true, true⟩,
  ⟨"uninstall_theme", true, true⟩,
  ⟨"remove_module", true, true⟩,
  ⟨"remove_theme", true, true⟩,
  ⟨"_update_view_key", true, true⟩,
  ⟨"rename_module", true, true⟩,
  ⟨"merge_module", true, true⟩,
  ⟨"force_install_module", true, false⟩,
  ⟨"_assert_modules_exists", true, true⟩,
  ⟨"new_module_dep", true, true⟩,
  ⟨"remove_module_deps", true, true⟩,
  ⟨"module_deps_diff", true, true⟩,
  ⟨"module_auto_install", true, true⟩,
  ⟨"new_module", true, true⟩,
  ⟨"force_migration_of_fresh_module", true, true⟩,
  ⟨"remove_field", true, true⟩,
  ⟨"remove_field_metadata", true, true⟩,
  ⟨"move_field_to_module", true, true⟩,
  ⟨"rename_field", true, true⟩,
  ⟨"convert_field_to_property", true, true⟩,
  ⟨"convert_binary_field_to_attachment", true, true⟩,
  ⟨"change_field_selection_values", true, true⟩,
  ⟨"is_field_anonymized", true, false⟩,
  ⟨"register_unanonymization_query", true, true⟩,
  ⟨"_unknown_model_id", true, false⟩,
  ⟨"remove_model", true, true⟩,
  ⟨"move_model", true, true⟩,
  ⟨"rename_model", true, true⟩,
  ⟨"merge_model", true, true⟩,
  ⟨"remove_inherit_from_model", true, true⟩,
  ⟨"update_field_references", true, true⟩,
  ⟨"adapt_related", true, true⟩,
  ⟨"update_server_actions_fields", true, true⟩,
  ⟨"check_company_consistency", true, true⟩,
  ⟨"split_group", true, true⟩,
  ⟨"drop_workflow", true, true⟩,
  ⟨"no_fiscal_lock", true, false⟩]

/-! ## Structural inventory: module-held mutable state (claim C3) -/

structure StateSite where
  function : String
  store : String
  writes : Bool
  deriving Repr, DecidableEq

/-- Every access of `util.py` to mutable state held in the module (or package)
itself and persisting across calls, in source order: the `ENVIRON` dict
imported from `.const`, the `result` attribute cached on the
`_unknown_model_id` function object, and the global `odoo.tools.config`. -/
def moduleStateSites : List StateSite := [
  ⟨"force_migration_of_fresh_module", "odoo.tools.config init flags", true⟩,
  ⟨"remove_field", "ENVIRON __renamed_fields", true⟩,
  ⟨"rename_field", "ENVIRON __renamed_fields", true⟩,
  ⟨"_unknown_model_id", "attribute result on the function object", true⟩,
  ⟨"rename_model", "ENVIRON __renamed_fields", true⟩,
  ⟨"rename_model", "ENVIRON moved0", true⟩]

/-! ## `_unknown_model_id` (claim C3, behavioural part)

The function caches its result on the function object itself
(`_unknown_model_id.result`); the cache is passed and returned explicitly here.
`nextId` models the serial id the INSERT would allocate. -/

/-- A row of `ir_model` (the columns `_unknown_model_id` touches). -/
structure IrModelRow where
  id : Nat
  name : String
  model : String
  deriving Repr, DecidableEq

/-- Result value, new cache contents, new `ir_model` table. -/
def unknown_model_id (cache : Option Nat) (irModel : List IrModelRow) (nextId : Nat) :
    Nat × Option Nat × List IrModelRow :=
  match cache with
  | some r => (r, some r, irModel)
  | none =>
    let irModel1 :=
      if irModel.any (fun m => m.model == "_unknown") then irModel
      else irModel ++ [⟨nextId, "Unknown", "_unknown"⟩]
    let r := ((irModel1.find? (fun m => m.model == "_unknown")).map (fun m => m.id)).getD 0
    (r, some r, irModel1)

/-! ## `remove_field` head: dispatch and metadata effects (claims C8, C3)

`remove_field(cr, model, fieldname, ...)` first dispatches: for `fieldname ==
"id"` it returns `remove_model(cr, model)` at once; otherwise it records the
field in `ENVIRON["__renamed_fields"][model]` and proceeds to delete the
`ir_model_fields` row and its xmlids (plus reference cleanups in other tables,
delegated to helpers outside this embedding's scope and recorded as events). -/

/-- A row of `ir_model_fields` (the columns the dispatch path touches). -/
structure IMFRow where
  id : Nat
  model : String
  name : String
  deriving Repr, DecidableEq

/-- The `ENVIRON["__renamed_fields"]` defaultdict: per model, the set of
renamed/removed field names. -/
def envAdd (env : List (String × List String)) (model field : String) :
    List (String × List String) :=
  if env.any (fun e => e.1 == model) then
    env.map (fun e => if e.1 == model then (e.1, e.2 ++ [field]) else e)
  else env ++ [(model, [field])]

structure RemoveFieldOut where
  env : List (String × List String)
  imf : List IMFRow
  imd : List IMDRow
  removeModelCalled : Option String
  events : List String
  deriving Repr, DecidableEq

/-- The dispatch and metadata-table effects of `remove_field`.  The non-`"id"`
branch mirrors, in source order: the ENVIRON update, the context/domain/server
action cleanups (recorded as events), the `ir_model_fields` delete with
`RETURNING id`, and the `ir_model_data` delete for the returned field ids. -/
def remove_field_core (env : List (String × List String)) (imf : List IMFRow)
    (imd : List IMDRow) (model field : String) : RemoveFieldOut :=
  if field == "id" then
    { env := env, imf := imf, imd := imd, removeModelCalled := some model, events := [] }
  else
    let env1 := envAdd env model field
    let fids := (imf.filter (fun f => f.model == model && f.name == field)).map (fun f => f.id)
    let imf1 := imf.filter (fun f => !(f.model == model && f.name == field))
    let imd1 :=
      if fids.isEmpty then imd
      else imd.filter (fun x => !(x.model == "ir.model.fields" && fids.contains x.resId))
    { env := env1, imf := imf1, imd := imd1, removeModelCalled := none,
      events := ["clean dashboards and filters", "adapt domains",
                 "delete ir_server_object_lines", "delete translations",
                 "clean mail aliases", "delete attachments", "drop column",
                 "recurse on inherits"] }

/-! ### Theorems for the inventory-based claims -/

/-- C1: database integrity-constraint violations are caught in exactly two
functions of the library, `move_field_to_module` and `rename_field`, every such
handler implements one of the rename-conflict fallbacks, and no other handler
of the library can intercept a database error (so every other database error
propagates to the caller). -/
theorem c1_integrity_errors_caught_in_two_places :
    ((excHandlerSites.filter catchesDbError).map (fun s => s.function)).eraseDups
      = ["move_field_to_module", "rename_field"]
    ∧ (excHandlerSites.all (fun s =>
        !catchesDbError s
        || (renameConflictFallbacks.contains s.fallback
            && (s.exceptionClass == "psycopg2.IntegrityError"))) = true) := by
  constructor
  · rfl
  · rfl

/-- C2 counterexample: it is false that every function of the library takes a
cursor and returns `None`: `modules_installed` (among others) returns a boolean
value, as its behavioural embedding also shows on a concrete database. -/
theorem c2_counterexample :
    (apiFunctions.all (fun f => f.takesCursorFirst && f.returnsNone)) = false
    ∧ modules_installed
        ⟨[⟨1, "base", "installed", some false, false⟩], [], [], [], [], [], [], true, true⟩
        ["base"] = true := by
  constructor
  · rfl
  · rfl

/-- C2 amended: the migration operations named by the claim (`rename_field`,
`merge_module`, `remove_model`) do take a cursor first and return `None`, and
the functions not fitting the pattern are exactly `main` (takes a callback)
and the value-returning query helpers `is_saas`, `dbuuid`, `modules_installed`,
`module_installed`, `force_install_module`, `is_field_anonymized`,
`_unknown_model_id` and the context manager `no_fiscal_lock`. -/
theorem c2_amended_signatures :
    ((apiFunctions.filter (fun f => !(f.takesCursorFirst && f.returnsNone))).map
        (fun f => f.name))
      = ["main", "is_saas", "dbuuid", "modules_installed", "module_installed",
         "force_install_module", "is_field_anonymized", "_unknown_model_id",
         "no_fiscal_lock"]
    ∧ (["rename_field", "merge_module", "remove_model"].all (fun n =>
        apiFunctions.any (fun f => f.name == n && f.takesCursorFirst && f.returnsNone)) = true) := by
  constructor
  · rfl
  · rfl

/-- C3 counterexample: `_unknown_model_id` is not stateless.  On the same
arguments and the same database contents (an `ir_model` table whose `_unknown`
row has id 7), its observable result differs depending on the value cached on
the function object by an earlier call: 7 with an empty cache, 5 with a stale
cache. -/
theorem c3_counterexample :
    (unknown_model_id none [⟨7, "Unknown", "_unknown"⟩] 9).1 = 7
    ∧ (unknown_model_id (some 5) [⟨7, "Unknown", "_unknown"⟩] 9).1 = 5
    ∧ (5 : Nat) ≠ 7 := by
  refine ⟨rfl, rfl, by decide⟩

/-! ### The intra-module call graph and the state-tainted closure (claim C3)

A direct-site inventory alone cannot say which procedures are stateless:
state dependence propagates through calls (`remove_model` consumes
the function-object cache of `_unknown_model_id` and writes the cached id into the
database, so a stale cache changes its behaviour on identical arguments and
database contents, and the same holds for its callers).  `utilCalls` is the
call graph between module-level functions of `util.py`, read off the source
in caller order; calls through the alias `delete_model = remove_model` are
recorded as calls to `remove_model`; calls into the other modules of the
package (`.pg`, `.helpers`, `.records`, `.domains`, `.inherit`, `.misc`,
`.orm`, `.report`) and into the host framework are not edges of this graph. -/
def utilCalls : List (String × String) := [
  ("dispatch_by_dbuuid", "dbuuid"),
  ("module_installed", "modules_installed"),
  ("uninstall_module", "remove_model"),
  ("uninstall_module", "remove_field"),
  ("uninstall_theme", "uninstall_module"),
  ("remove_module", "uninstall_module"),
  ("remove_theme", "uninstall_theme"),
  ("rename_module", "_update_view_key"),
  ("merge_module", "_update_view_key"),
  ("merge_module", "force_install_module"),
  ("force_install_module", "force_install_module"),
  ("new_module_dep", "_assert_modules_exists"),
  ("new_module_dep", "force_install_module"),
  ("module_deps_diff", "new_module_dep"),
  ("module_deps_diff", "remove_module_deps"),
  ("new_module", "_assert_modules_exists"),
  ("new_module", "modules_installed"),
  ("new_module", "new_module_dep"),
  ("new_module", "module_auto_install"),
  ("remove_field", "remove_model"),
  ("remove_field", "remove_field"),
  ("remove_field_metadata", "remove_field_metadata"),
  ("move_field_to_module", "move_field_to_module"),
  ("rename_field", "rename_field"),
  ("rename_field", "update_field_references"),
  ("convert_field_to_property", "is_field_anonymized"),
  ("convert_field_to_property", "register_unanonymization_query"),
  ("change_field_selection_values", "change_field_selection_values"),
  ("is_field_anonymized", "module_installed"),
  ("remove_model", "_unknown_model_id"),
  ("move_model", "module_installed"),
  ("move_model", "remove_model"),
  ("merge_model", "remove_model"),
  ("remove_inherit_from_model", "remove_field"),
  ("update_field_references", "adapt_related"),
  ("update_field_references", "update_field_references"),
  ("adapt_related", "adapt_related")]

/-- The functions with a direct module-state access site. -/
def directStateFunctions : List String :=
  (moduleStateSites.map (fun s => s.function)).eraseDups

/-- One step of the taint closure: add every caller of a tainted function. -/
def taintStep (calls : List (String × String)) (s : List String) : List String :=
  s ++ ((calls.filter (fun c => s.contains c.2 && !(s.contains c.1))).map
    (fun c => c.1)).eraseDups

/-- The procedures of `util.py` that access module-held mutable state directly
or reach an access through a chain of intra-module calls. -/
def statefulFunctions : List String :=
  (taintStep utilCalls)^[utilCalls.length + 1] directStateFunctions

/-- C3 amended: the module is not stateless, and the procedures that can
depend on module-held mutable state are exactly the thirteen in the taint
closure of the call graph over the direct access sites:
`force_migration_of_fresh_module` (global odoo config), `remove_field`,
`rename_field`, `rename_model` (module-level `ENVIRON` dict),
`_unknown_model_id` (result cached on the function object) and, through
intra-module calls reaching `_unknown_model_id` or `remove_field`,
`uninstall_module`, `remove_model`, `remove_inherit_from_model`,
`uninstall_theme`, `remove_module`, `move_model`, `merge_model` and
`remove_theme`; every other procedure of the library neither accesses such
state directly nor reaches an access through any chain of intra-module
calls. -/
theorem c3_amended_stateful_closure :
    statefulFunctions
      = ["force_migration_of_fresh_module", "remove_field", "rename_field",
         "_unknown_model_id", "rename_model", "uninstall_module", "remove_model",
         "remove_inherit_from_model", "uninstall_theme", "remove_module",
         "move_model", "merge_model", "remove_theme"]
    ∧ (statefulFunctions.contains "remove_model" = true)
    ∧ ((apiFunctions.filter (fun f => !(statefulFunctions.contains f.name))).map
        (fun f => f.name)
      = ["main", "is_saas", "dbuuid", "dispatch_by_dbuuid",
         "ensure_m2o_func_field_data", "uniq_tags", "modules_installed",
         "module_installed", "_update_view_key", "rename_module", "merge_module",
         "force_install_module", "_assert_modules_exists", "new_module_dep",
         "remove_module_deps", "module_deps_diff", "module_auto_install",
         "new_module", "remove_field_metadata", "move_field_to_module",
         "convert_field_to_property", "convert_binary_field_to_attachment",
         "change_field_selection_values", "is_field_anonymized",
         "register_unanonymization_query", "update_field_references",
         "adapt_related", "update_server_actions_fields",
         "check_company_consistency", "split_group", "drop_workflow",
         "no_fiscal_lock"]) := by
  refine ⟨?_, ?_, ?_⟩
  · rfl
  · rfl
  · rfl

/-- C7 counterexample: it is false that every SQL statement runs synchronously
on the cursor the operation is given: `remove_field` hands its attachment
cleanup statements to `parallel_execute`, which runs them in parallel on other
connections. -/
theorem c7_counterexample : allSqlSynchronousOnGivenCursor = false := by rfl

/-- C7 amended: no operation commits or rolls back the enclosing transaction;
the only rollbacks are to local savepoints in the rename-conflict fallbacks
(`move_field_to_module`, `rename_field`); every SQL statement runs
synchronously on the given cursor except the statements `remove_field` and
`change_field_selection_values` delegate to the external `parallel_execute`
helper and the auxiliary read-only server-side cursor of
`convert_binary_field_to_attachment`. -/
theorem c7_amended_txn_sites :
    (txnSites.all (fun s =>
        !(s.kind == TxnKind.commitTxn) && !(s.kind == TxnKind.rollbackTxn)) = true)
    ∧ ((txnSites.filter (fun s => s.kind == TxnKind.savepointRollback)).map
        (fun s => s.function)
        = ["move_field_to_module", "rename_field", "rename_field"])
    ∧ ((txnSites.filter (fun s => s.kind == TxnKind.parallelDispatch)).map
        (fun s => s.function)
        = ["remove_field", "change_field_selection_values"])
    ∧ ((txnSites.filter (fun s => s.kind == TxnKind.auxiliaryCursor)).map
        (fun s => s.function)
        = ["convert_binary_field_to_attachment"]) := by
  refine ⟨rfl, rfl, rfl, rfl⟩

/-- C8: for every model and every state, calling `remove_field` with
`fieldname = "id"` removes no field: it leaves the ENVIRON bookkeeping, the
`ir_model_fields` table and the `ir_model_data` table untouched, performs none
of the field-removal steps, and delegates to `remove_model` on the whole
model. -/
theorem c8_remove_field_id_delegates (env : List (String × List String))
    (imf : List IMFRow) (imd : List IMDRow) (model : String) :
    remove_field_core env imf imd model "id"
      = { env := env, imf := imf, imd := imd, removeModelCalled := some model, events := [] } := by
  rfl

/-- Witness for C8 at a concrete state. -/
theorem c8_remove_field_id_delegates_witness :
    remove_field_core [] [⟨1, "res.partner", "id"⟩] [] "res.partner" "id"
      = { env := [], imf := [⟨1, "res.partner", "id"⟩], imd := [],
          removeModelCalled := some "res.partner", events := [] } :=
  c8_remove_field_id_delegates [] [⟨1, "res.partner", "id"⟩] [] "res.partner"

/-! ## `rename_field`: the external-id (xmlid) handling (claim C5)

After `rename_field` has renamed the `ir_model_fields` row (obtaining its id
`fid`), it (1) deletes, per module, all but the first-by-id `ir_model_data` row
pointing at that field, (2) updates the remaining rows' `name` to the
new-pattern name inside a savepoint, and (3) on an integrity error retries with
the name suffixed by `_<fid>`; a failure of the retry propagates.  The
PostgreSQL unique index on `ir_model_data(module, name)` is modelled by letting
an UPDATE succeed only when its result table is duplicate-free; `savepoint`
(a helper from `.pg`, outside `src`) is modelled from the spec as restoring the
pre-UPDATE state before the retry. -/

/-- Is `x` an xmlid row of the field with id `fid`? -/
def isFieldXmlid (fid : Nat) (x : IMDRow) : Bool :=
  x.model == "ir.model.fields" && x.resId == fid

/-- The unique index on `ir_model_data(module, name)`: no two rows share both. -/
def imdUniqueB : List IMDRow → Bool
  | [] => true
  | x :: xs => !(xs.any (fun y => y.module == x.module && y.name == x.name)) && imdUniqueB xs

/-- The dedup DELETE of `rename_field`: among the xmlid rows of field `fid`,
keep only the first-by-id row of each module
(`unnest((array_agg(id ORDER BY id))[2:count(id)]) ... GROUP BY module`). -/
def imdFieldDedup (imd : List IMDRow) (fid : Nat) : List IMDRow :=
  imd.filter (fun x => !(isFieldXmlid fid x && imd.any (fun y =>
    isFieldXmlid fid y && y.module == x.module && decide (y.id < x.id))))

/-- The UPDATE `SET name=%s WHERE model='ir.model.fields' AND res_id=%s`. -/
def setFieldXmlidName (imd : List IMDRow) (fid : Nat) (nm : String) : List IMDRow :=
  imd.map (fun x => if isFieldXmlid fid x then { x with name := nm } else x)

/-- The xmlid portion of `rename_field` for a renamed field `fid` and
new-pattern name `nm`: dedup, update, and on conflict retry with `nm_<fid>`;
a second conflict is an uncaught `IntegrityError`. -/
def rename_field_imd (imd : List IMDRow) (fid : Nat) (nm : String) :
    Except String (List IMDRow) :=
  let d := imdFieldDedup imd fid
  let u1 := setFieldXmlidName d fid nm
  if imdUniqueB u1 then .ok u1
  else
    let u2 := setFieldXmlidName d fid (nm ++ "_" ++ toString fid)
    if imdUniqueB u2 then .ok u2 else .error "IntegrityError"

/-- Every nonempty list of rows has a row of minimal id. -/
theorem exists_min_id (l : List IMDRow) (hne : l ≠ []) :
    ∃ y ∈ l, ∀ z ∈ l, y.id ≤ z.id := by
  induction l with
  | nil => cases hne rfl
  | cons a t ih =>
    cases t with
    | nil =>
      exact ⟨a, List.mem_singleton.mpr rfl, by
        intro z hz
        rw [List.mem_singleton] at hz
        subst hz
        exact Nat.le_refl _⟩
    | cons b t' =>
      obtain ⟨y, hy, hmin⟩ := ih (by simp)
      by_cases hab : a.id ≤ y.id
      · refine ⟨a, List.mem_cons_self .., ?_⟩
        intro z hz
        rcases List.mem_cons.mp hz with h | h
        · subst h; exact Nat.le_refl _
        · exact Nat.le_trans hab (hmin z h)
      · refine ⟨y, List.mem_cons_of_mem _ hy, ?_⟩
        intro z hz
        rcases List.mem_cons.mp hz with h | h
        · subst h; exact Nat.le_of_lt (Nat.lt_of_not_le hab)
        · exact hmin z h

/-- Membership in the dedup result. -/
theorem mem_imdFieldDedup {imd : List IMDRow} {fid : Nat} {x : IMDRow} :
    x ∈ imdFieldDedup imd fid ↔ x ∈ imd ∧
      (!(isFieldXmlid fid x && imd.any (fun y =>
        isFieldXmlid fid y && y.module == x.module && decide (y.id < x.id)))) = true := by
  unfold imdFieldDedup
  exact List.mem_filter

/-- The dedup step never keeps two distinct-id xmlid rows of the field in the
same module. -/
theorem imdFieldDedup_at_most_one (imd : List IMDRow) (fid : Nat) :
    ((imdFieldDedup imd fid).all (fun x => !(isFieldXmlid fid x &&
      (imdFieldDedup imd fid).any (fun y =>
        isFieldXmlid fid y && y.module == x.module && !(y.id == x.id))))) = true := by
  rw [List.all_eq_true]
  intro x hx
  rw [Bool.not_eq_true', Bool.and_eq_false_iff]
  by_cases hfx : isFieldXmlid fid x = true
  · right
    rw [← Bool.not_eq_true, List.any_eq_true]
    rintro ⟨y, hy, hcond⟩
    rw [Bool.and_eq_true, Bool.and_eq_true] at hcond
    obtain ⟨⟨hfy, hmod⟩, hid⟩ := hcond
    rw [Bool.not_eq_true', beq_eq_false_iff_ne] at hid
    rw [mem_imdFieldDedup] at hx hy
    obtain ⟨hxmem, hxkeep⟩ := hx
    obtain ⟨hymem, hykeep⟩ := hy
    rw [Bool.not_eq_true', Bool.and_eq_false_iff] at hxkeep hykeep
    rcases Nat.lt_or_ge y.id x.id with hlt | hge
    · rcases hxkeep with h | h
      · rw [hfx] at h; cases h
      · rw [← Bool.not_eq_true, List.any_eq_true] at h
        exact h ⟨y, hymem, by
          rw [Bool.and_eq_true, Bool.and_eq_true]
          exact ⟨⟨hfy, hmod⟩, by simpa using hlt⟩⟩
    · have hlt : x.id < y.id := Nat.lt_of_le_of_ne hge (by
        intro hcontra
        exact hid hcontra.symm)
      rcases hykeep with h | h
      · rw [hfy] at h; cases h
      · rw [← Bool.not_eq_true, List.any_eq_true] at h
        refine h ⟨x, hxmem, ?_⟩
        rw [Bool.and_eq_true, Bool.and_eq_true]
        refine ⟨⟨hfx, ?_⟩, by simpa using hlt⟩
        rw [beq_iff_eq] at hmod ⊢
        exact hmod.symm
  · left
    exact Bool.not_eq_true _ ▸ (by simpa using hfx)

/-- Every module that had an xmlid row of the field keeps one after dedup. -/
theorem imdFieldDedup_keeps_one (imd : List IMDRow) (fid : Nat) :
    (imd.all (fun x => !(isFieldXmlid fid x) ||
      (imdFieldDedup imd fid).any (fun y =>
        isFieldXmlid fid y && y.module == x.module))) = true := by
  rw [List.all_eq_true]
  intro x hx
  rw [Bool.or_eq_true]
  by_cases hfx : isFieldXmlid fid x = true
  · right
    -- take the minimal-id row of x's module group
    set L := imd.filter (fun y => isFieldXmlid fid y && y.module == x.module) with hL
    have hxL : x ∈ L := by
      rw [hL, List.mem_filter]
      exact ⟨hx, by rw [Bool.and_eq_true]; exact ⟨hfx, by rw [beq_iff_eq]⟩⟩
    obtain ⟨y, hyL, hymin⟩ := exists_min_id L (by intro h; rw [h] at hxL; cases hxL)
    have hyprops := (List.mem_filter.mp (hL ▸ hyL))
    obtain ⟨hymem, hycond⟩ := hyprops
    rw [Bool.and_eq_true] at hycond
    obtain ⟨hfy, hymod⟩ := hycond
    rw [List.any_eq_true]
    refine ⟨y, ?_, by rw [Bool.and_eq_true]; exact ⟨hfy, hymod⟩⟩
    rw [mem_imdFieldDedup]
    refine ⟨hymem, ?_⟩
    rw [Bool.not_eq_true', Bool.and_eq_false_iff]
    right
    rw [← Bool.not_eq_true, List.any_eq_true]
    rintro ⟨z, hzmem, hzcond⟩
    rw [Bool.and_eq_true, Bool.and_eq_true] at hzcond
    obtain ⟨⟨hfz, hzmod⟩, hzid⟩ := hzcond
    have hzL : z ∈ L := by
      rw [hL, List.mem_filter]
      refine ⟨hzmem, ?_⟩
      rw [Bool.and_eq_true]
      refine ⟨hfz, ?_⟩
      rw [beq_iff_eq] at hzmod hymod ⊢
      exact hzmod.trans hymod
    have := hymin z hzL
    rw [decide_eq_true_eq] at hzid
    omega
  · left
    simpa using hfx

/-- Rows of the field group get the written name; other rows are unchanged. -/
theorem mem_setFieldXmlidName {imd : List IMDRow} {fid : Nat} {nm : String} {x : IMDRow}
    (hx : x ∈ setFieldXmlidName imd fid nm) (hfx : isFieldXmlid fid x = true) :
    x.name = nm := by
  unfold setFieldXmlidName at hx
  obtain ⟨y, _, hyx⟩ := List.mem_map.mp hx
  by_cases hfy : isFieldXmlid fid y = true
  · rw [if_pos hfy] at hyx
    rw [← hyx]
  · rw [if_neg (by simpa using hfy)] at hyx
    subst hyx
    cases hfy hfx

/-- C5: when the xmlid portion of `rename_field` completes, (1) the result
satisfies the `ir_model_data` per-`(module, name)` uniqueness invariant,
(2) the preceding dedup DELETE left at most one row per module for the field
and (3) kept one for every module that had one, (4) every xmlid of the field
now bears the new-pattern name or, (5) exactly when the plain rename would
have violated uniqueness, the name suffixed with the field id. -/
theorem c5_rename_field_xmlid_unique (imd : List IMDRow) (fid : Nat) (nm : String)
    (out : List IMDRow) (h : rename_field_imd imd fid nm = .ok out) :
    imdUniqueB out = true
    ∧ ((imdFieldDedup imd fid).all (fun x => !(isFieldXmlid fid x &&
        (imdFieldDedup imd fid).any (fun y =>
          isFieldXmlid fid y && y.module == x.module && !(y.id == x.id))))) = true
    ∧ (imd.all (fun x => !(isFieldXmlid fid x) ||
        (imdFieldDedup imd fid).any (fun y =>
          isFieldXmlid fid y && y.module == x.module))) = true
    ∧ (out.all (fun x => !(isFieldXmlid fid x)
        || (x.name == nm || x.name == (nm ++ "_" ++ toString fid)))) = true
    ∧ (imdUniqueB (setFieldXmlidName (imdFieldDedup imd fid) fid nm) = false →
        out = setFieldXmlidName (imdFieldDedup imd fid) fid (nm ++ "_" ++ toString fid)) := by
  simp only [rename_field_imd] at h
  refine ⟨?_, imdFieldDedup_at_most_one imd fid, imdFieldDedup_keeps_one imd fid, ?_, ?_⟩
  · split at h
    · obtain rfl := Except.ok.inj h
      assumption
    · split at h
      · obtain rfl := Except.ok.inj h
        assumption
      · cases h
  · split at h
    · obtain rfl := Except.ok.inj h
      rw [List.all_eq_true]
      intro x hx
      by_cases hf : isFieldXmlid fid x = true
      · have := mem_setFieldXmlidName hx hf
        rw [Bool.or_eq_true, Bool.or_eq_true]
        exact Or.inr (Or.inl (by rw [beq_iff_eq]; exact this))
      · rw [Bool.or_eq_true]
        exact Or.inl (by simpa using hf)
    · split at h
      · obtain rfl := Except.ok.inj h
        rw [List.all_eq_true]
        intro x hx
        by_cases hf : isFieldXmlid fid x = true
        · have := mem_setFieldXmlidName hx hf
          rw [Bool.or_eq_true, Bool.or_eq_true]
          exact Or.inr (Or.inr (by rw [beq_iff_eq]; exact this))
        · rw [Bool.or_eq_true]
          exact Or.inl (by simpa using hf)
      · cases h
  · intro hfail
    rw [hfail] at h
    simp only [Bool.false_eq_true, if_false] at h
    split at h
    · exact (Except.ok.inj h).symm
    · cases h

/-- Witness for C5: a database whose module `base` owns two xmlids of field 10
(the dedup deletes the second) and where the plain rename into
`field_res_partner_x` collides with a pre-existing xmlid, forcing the suffixed
retry `field_res_partner_x_10`. -/
theorem c5_rename_field_xmlid_unique_witness :
    imdUniqueB (setFieldXmlidName (imdFieldDedup
        [⟨1, "base", "field_res_partner_a", "ir.model.fields", 10, false⟩,
         ⟨2, "base", "field_res_partner_b", "ir.model.fields", 10, false⟩,
         ⟨3, "base", "field_res_partner_x", "ir.model.fields", 99, false⟩] 10) 10
        "field_res_partner_x") = false
    ∧ rename_field_imd
        [⟨1, "base", "field_res_partner_a", "ir.model.fields", 10, false⟩,
         ⟨2, "base", "field_res_partner_b", "ir.model.fields", 10, false⟩,
         ⟨3, "base", "field_res_partner_x", "ir.model.fields", 99, false⟩] 10
        "field_res_partner_x"
      = .ok [⟨1, "base", "field_res_partner_x_10", "ir.model.fields", 10, false⟩,
             ⟨3, "base", "field_res_partner_x", "ir.model.fields", 99, false⟩]
    ∧ imdUniqueB [⟨1, "base", "field_res_partner_x_10", "ir.model.fields", 10, false⟩,
                  ⟨3, "base", "field_res_partner_x", "ir.model.fields", 99, false⟩] = true := by
  refine ⟨by decide, by rfl, ?_⟩
  exact (c5_rename_field_xmlid_unique
    [⟨1, "base", "field_res_partner_a", "ir.model.fields", 10, false⟩,
     ⟨2, "base", "field_res_partner_b", "ir.model.fields", 10, false⟩,
     ⟨3, "base", "field_res_partner_x", "ir.model.fields", 99, false⟩] 10
    "field_res_partner_x"
    [⟨1, "base", "field_res_partner_x_10", "ir.model.fields", 10, false⟩,
     ⟨3, "base", "field_res_partner_x", "ir.model.fields", 99, false⟩] rfl).1

/-! ## `uniq_tags` (claim C4)

`uniq_tags(cr, model, uniq_column, order)` deduplicates the rows of the tag
model's table.  Each tag row carries here the evaluated value of the
`{uniq_column}` grouping expression (`uniqVal`) and of the `{order}` ordering
expression (`ordVal`); the defaults are `name` and `id`.  Each foreign key
pointing at the tag table is a descriptor carrying exactly what the source
inspects: the delete action `da` from `get_fk`, the number of other columns,
the `ir_model_fields` counts used by the two many2many probes and the
many2one probe, `model_of_table(cr, ft)`, and the referencing rows as
`(other-column value, fk value)` pairs.

The source's loop reassigns the Python variable `model` in the many2one
branch (`model = model_of_table(cr, ft)`), so the final
`cr.execute(query, [model])` — whose `_upd_imd` CTE redirects
`ir_model_data.res_id` `WHERE x.model = %s` — receives the model of the last
many2one referencing table instead of the tag model.  The embedding keeps that
behaviour (`classifyFks` threads the shadowed variable). -/

structure TagRow where
  id : Nat
  uniqVal : String
  ordVal : Nat
  deriving Repr, DecidableEq

structure FKTable where
  table : String
  fc : String
  da : String
  nCols : Nat
  c1 : String
  imfM2MCount : Nat
  modelOfTable : Option String
  imfM2OCount : Nat
  rows : List (Nat × Option Nat)
  deriving Repr, DecidableEq

structure UniqDB where
  tags : List TagRow
  imd : List IMDRow
  fks : List FKTable
  deriving Repr, DecidableEq

/-- The classification loop of `uniq_tags`: `is_many2many` if the fk has
`ondelete=cascade` and a single companion column, or if some many2many field
uses the table as `relation_table`; otherwise the `model` variable is
reassigned to `model_of_table(cr, ft)` and the many2one probe runs (the
`assert` raises when neither matches).  Returns the final (shadowed) value of
`model` together with each fk's classification. -/
def classifyFks (model : String) : List FKTable → Except String (String × List (FKTable × Bool))
  | [] => .ok (model, [])
  | fk :: rest =>
    let m2m := (fk.da == "c" && fk.nCols == 1) || !(fk.imfM2MCount == 0)
    if m2m then
      match classifyFks model rest with
      | .ok (mf, l) => .ok (mf, (fk, true) :: l)
      | .error e => .error e
    else
      match fk.modelOfTable with
      | none => .error "AssertionError"
      | some mm =>
        if fk.imfM2OCount == 0 then .error "AssertionError"
        else
          match classifyFks mm rest with
          | .ok (mf, l) => .ok (mf, (fk, false) :: l)
          | .error e => .error e

/-- Stable insertion for `array_agg(id ORDER BY {order})`. -/
def insertByOrd (x : TagRow) : List TagRow → List TagRow
  | [] => [x]
  | y :: ys => if y.ordVal < x.ordVal then y :: insertByOrd x ys else x :: y :: ys

def sortByOrd : List TagRow → List TagRow
  | [] => []
  | x :: xs => insertByOrd x (sortByOrd xs)

/-- The `dups` CTE: per `{uniq_column}` group with more than one row, the first
id under `{order}` and the list of the other ids. -/
def dupGroups (tags : List TagRow) : List (Nat × List Nat) :=
  ((tags.map (fun t => t.uniqVal)).eraseDups).filterMap (fun v =>
    match sortByOrd (tags.filter (fun t => t.uniqVal == v)) with
    | a :: b :: rest => some (a.id, (b :: rest).map (fun t => t.id))
    | _ => none)

/-- The kept id of the group a duplicate id belongs to, if any. -/
def keptOf (groups : List (Nat × List Nat)) (i : Nat) : Option Nat :=
  (groups.find? (fun g => g.2.contains i)).map (fun g => g.1)

/-- One `_upd_N` CTE: for a many2many relation table, `INSERT .. SELECT r.c1,
d.id .. EXCEPT SELECT r.c1, r.c2 .. WHERE r.c2 = d.id`; for a many2one column,
`UPDATE .. SET c = d.id WHERE c = ANY(d.others)`. -/
def applyFkUpdate (groups : List (Nat × List Nat)) (fk : FKTable) (isM2M : Bool) : FKTable :=
  if isM2M then
    let candidates := (fk.rows.filterMap (fun r =>
      match r.2 with
      | some t => (keptOf groups t).map (fun k => (r.1, some k))
      | none => none)).eraseDups
    let inserted := candidates.filter (fun c => !(fk.rows.contains c))
    { fk with rows := fk.rows ++ inserted }
  else
    { fk with rows := fk.rows.map (fun r =>
        match r.2 with
        | some t =>
          match keptOf groups t with
          | some k => (r.1, some k)
          | none => r
        | none => r) }

/-- The foreign-key delete action fired by the final `DELETE FROM {table}`:
cascade (`c`) drops referencing rows, set-null (`n`) clears them, any other
action raises when a reference to a deleted id remains. -/
def cascadeDelete (deleted : List Nat) (fk : FKTable) : Except String FKTable :=
  if fk.da == "c" then
    .ok { fk with rows := fk.rows.filter (fun r =>
      match r.2 with
      | some t => !(deleted.contains t)
      | none => true) }
  else if fk.da == "n" then
    .ok { fk with rows := fk.rows.map (fun r =>
      match r.2 with
      | some t => if deleted.contains t then (r.1, none) else r
      | none => r) }
  else
    if fk.rows.any (fun r =>
        match r.2 with
        | some t => deleted.contains t
        | none => false) then .error "IntegrityError"
    else .ok fk

/-- `uniq_tags`: classify every foreign key (`assert upds` requires at least
one), compute the duplicate groups, redirect `ir_model_data.res_id` for rows
whose `model` equals the final — shadowed — `model` variable, apply the
per-foreign-key redirects, and delete the duplicate tag rows. -/
def uniq_tags_run (model : String) (db : UniqDB) : Except String UniqDB :=
  if db.fks.isEmpty then .error "AssertionError"
  else
    match classifyFks model db.fks with
    | .error e => .error e
    | .ok (finalModel, cls) =>
      let groups := dupGroups db.tags
      let others := groups.flatMap (fun g => g.2)
      let imd1 := db.imd.map (fun x =>
        if x.model == finalModel then
          match keptOf groups x.resId with
          | some k => { x with resId := k }
          | none => x
        else x)
      let fks1 := cls.map (fun p => applyFkUpdate groups p.1 p.2)
      let tags1 := db.tags.filter (fun t => !(others.contains t.id))
      match fks1.mapM (cascadeDelete others) with
      | .error e => .error e
      | .ok fks2 => .ok { tags := tags1, imd := imd1, fks := fks2 }

/-- A tag model `res.partner.category` with two tags named alike, referenced
by a customization's many2one column `res_partner.category_id`, and an xmlid
pointing at the duplicate tag. -/
def c4FailingDB : UniqDB :=
  { tags := [⟨1, "vip", 1⟩, ⟨2, "vip", 2⟩],
    imd := [⟨11, "base", "partner_category_vip", "res.partner.category", 2, false⟩],
    fks := [{ table := "res_partner", fc := "category_id", da := "a", nCols := 5,
              c1 := "id", imfM2MCount := 0, modelOfTable := some "res.partner",
              imfM2OCount := 1, rows := [(10, some 2)] }] }

/-- C4, evaluation at the failing input: `uniq_tags` on `c4FailingDB` deletes
the duplicate tag 2 and redirects the many2one reference to the kept tag 1,
but — because the loop shadowed `model` with `"res.partner"` — it leaves the
`ir_model_data` row of model `"res.partner.category"` pointing at the deleted
id 2 instead of redirecting it to 1 as the claim requires. -/
theorem c4_uniq_tags_imd_not_redirected :
    (match uniq_tags_run "res.partner.category" c4FailingDB with
     | .ok out =>
         out.tags.all (fun t => !(t.id == 2))
         && out.imd.any (fun x => x.model == "res.partner.category" && x.resId == 2)
         && !(out.imd.any (fun x => x.model == "res.partner.category" && x.resId == 1))
         && out.fks.all (fun fk => fk.rows.contains ((10 : Nat), some (1 : Nat)))
     | .error _ => false) = true := by rfl

/-! ## `force_install_module` (used by `merge_module`, `new_module_dep`)

The recursive-CTE dependency walk is computed as an iterated fixpoint; the
auto-install recursion of the source is given explicit fuel (the source
terminates because each pass flips finitely many `uninstalled` modules to
`to install`).  Only the closure rows' states and demo flags are updated;
the function returns the state of the requested module from the `RETURNING`
dictionary. -/

/-- The `CASE` of the force-install UPDATE. -/
def caseNewState (s : String) : String :=
  if s == "to remove" then "to upgrade"
  else if s == "uninstalled" then "to install"
  else s

/-- `(SELECT demo FROM ir_module_module WHERE name='base')`. -/
def demoOfBase (db : DB) : Option Bool :=
  match db.modules.find? (fun m => m.name == "base") with
  | some m => m.demo
  | none => none

/-- One unfolding of the recursive `deps` CTE: add the dependency rows of
every module whose name already appears as a dependency name. -/
def depClosureStep (db : DB) (s : List (Nat × String)) : List (Nat × String) :=
  s ++ ((db.modules.flatMap (fun m =>
    if s.any (fun p => p.2 == m.name) then
      (db.deps.filter (fun d => d.moduleId == m.id)).map (fun d => (m.id, d.name))
    else [])).filter (fun p => !(s.contains p)))

/-- The `deps` CTE: pairs `(module id, dependency name)` reachable from the
requested module, iterated to its fixpoint (the pair count is bounded by
`|modules| * |deps|`). -/
def depClosure (db : DB) (module : String) : List (Nat × String) :=
  let base := (db.modules.filter (fun m => m.name == module)).flatMap (fun m =>
    (db.deps.filter (fun d => d.moduleId == m.id)).map (fun d => (m.id, d.name)))
  (depClosureStep db)^[db.modules.length * db.deps.length + 1] base

/-- The auto-install query: uninstalled `auto_install` modules having a
dependency among the freshly `to install` ones and whose (possibly
`auto_install_required`-filtered) dependencies' modules are all in an
installed state; the inner joins require at least one dependency row with an
existing module row. -/
def autoInstallCandidates (db : DB) (toinstall : List String) : List String :=
  ((db.modules.filter (fun onMe =>
      onMe.state == "uninstalled" && onMe.autoInstall
      && db.deps.any (fun d => d.moduleId == onMe.id && toinstall.contains d.name
           && (!db.hasAutoInstallRequired || d.autoInstallRequired))
      && db.deps.any (fun e => e.moduleId == onMe.id
           && (!db.hasAutoInstallRequired || e.autoInstallRequired)
           && db.modules.any (fun its => its.name == e.name))
      && (db.deps.filter (fun e => e.moduleId == onMe.id
           && (!db.hasAutoInstallRequired || e.autoInstallRequired))).all (fun e =>
             (db.modules.filter (fun its => its.name == e.name)).all (fun its =>
               installedModuleStates.contains its.state)))).map (fun m => m.name)).eraseDups

/-- `force_install_module(cr, module, if_installed)`: returns the updated
database and `states.get(module)`. -/
def force_install_module (fuel : Nat) (db : DB) (module : String)
    (ifInstalled : Option (List String)) : DB × Option String :=
  match fuel with
  | 0 => (db, none)
  | fuel + 1 =>
    let cond :=
      match ifInstalled with
      | none => true
      | some mods => db.modules.any (fun m =>
          mods.contains m.name && installedModuleStates.contains m.state)
    let modIds := (depClosure db module).map (fun p => p.1)
    let demoB := demoOfBase db
    let states : List (String × String) :=
      if cond then
        (db.modules.filter (fun m => modIds.contains m.id)).map
          (fun m => (m.name, caseNewState m.state))
      else []
    let db1 :=
      if cond then
        { db with modules := db.modules.map (fun m =>
            if modIds.contains m.id then
              { m with state := caseNewState m.state, demo := demoB }
            else m) }
      else db
    let toinstall := (states.filter (fun p => p.2 == "to install")).map (fun p => p.1)
    let db2 :=
      if toinstall.isEmpty then db1
      else (autoInstallCandidates db1 toinstall).foldl
        (fun d mod => (force_install_module fuel d mod none).1) db1
    (db2, (states.find? (fun p => p.1 == module)).map (fun p => p.2))

/-- Two database states that differ at most in the states/demo flags of their
module rows: same module names in the same order, everything else equal. -/
def SameSkeleton (a b : DB) : Prop :=
  a.modules.map (fun m => m.name) = b.modules.map (fun m => m.name)
  ∧ a.deps = b.deps ∧ a.imd = b.imd ∧ a.constraints = b.constraints
  ∧ a.relations = b.relations ∧ a.translations = b.translations
  ∧ a.views = b.views ∧ a.hasViewKeyColumn = b.hasViewKeyColumn
  ∧ a.hasAutoInstallRequired = b.hasAutoInstallRequired

theorem sameSkeleton_refl (a : DB) : SameSkeleton a a :=
  ⟨rfl, rfl, rfl, rfl, rfl, rfl, rfl, rfl, rfl⟩

theorem sameSkeleton_trans {a b c : DB} (h1 : SameSkeleton a b) (h2 : SameSkeleton b c) :
    SameSkeleton a c := by
  obtain ⟨n1, d1, i1, c1, r1, t1, v1, k1, q1⟩ := h1
  obtain ⟨n2, d2, i2, c2, r2, t2, v2, k2, q2⟩ := h2
  exact ⟨n1.trans n2, d1.trans d2, i1.trans i2, c1.trans c2, r1.trans r2,
         t1.trans t2, v1.trans v2, k1.trans k2, q1.trans q2⟩

/-- Updating states/demo of some module rows preserves the skeleton. -/
theorem sameSkeleton_update (db : DB) (modIds : List Nat) (demoB : Option Bool) :
    SameSkeleton
      { db with modules := db.modules.map (fun m =>
          if modIds.contains m.id then { m with state := caseNewState m.state, demo := demoB }
          else m) } db := by
  refine ⟨?_, rfl, rfl, rfl, rfl, rfl, rfl, rfl, rfl⟩
  rw [List.map_map]
  apply List.map_congr_left
  intro m _
  simp only [Function.comp]
  split <;> rfl

theorem fim_skeleton :
    ∀ (fuel : Nat) (db : DB) (module : String) (oi : Option (List String)),
    SameSkeleton (force_install_module fuel db module oi).1 db := by
  intro fuel
  induction fuel with
  | zero => intro db m oi; exact sameSkeleton_refl db
  | succ fuel ih =>
    intro db m oi
    have foldl_skel : ∀ (l : List String) (d : DB),
        SameSkeleton (l.foldl (fun d mod => (force_install_module fuel d mod none).1) d) d := by
      intro l
      induction l with
      | nil => intro d; exact sameSkeleton_refl d
      | cons a t iht =>
        intro d
        exact sameSkeleton_trans (iht _) (ih d a none)
    show SameSkeleton (force_install_module (fuel + 1) db m oi).1 db
    simp only [force_install_module]
    split
    · split
      · exact sameSkeleton_update ..
      · exact sameSkeleton_trans (foldl_skel _ _) (sameSkeleton_update ..)
    · split
      · exact sameSkeleton_refl db
      · exact sameSkeleton_trans (foldl_skel _ _) (sameSkeleton_refl db)

/-! ## `module_auto_install`, `new_module_dep`, `new_module` (claim C10) -/

/-- Does a row with this module name exist (`SELECT count(1) ... WHERE name=%s`)? -/
def hasModule (db : DB) (n : String) : Bool :=
  db.modules.any (fun m => m.name == n)

/-- The `auto_install` argument of `new_module` / `module_auto_install`: a
boolean or a collection of dependency names. -/
inductive AutoInstallArg where
  | bool (b : Bool)
  | list (mods : List String)
  deriving Repr, DecidableEq

/-- Python truthiness of the argument. -/
def aiTruthy : AutoInstallArg → Bool
  | .bool b => b
  | .list l => !l.isEmpty

/-- `module_auto_install(cr, module, auto_install)`: when the
`auto_install_required` column exists, set it on the module's dependency rows
(`TRUE`, `FALSE`, or `name = ANY(list)`; an empty list is falsy, hence
`FALSE`); then set `ir_module_module.auto_install` to
`auto_install is not False` (true for any list, even an empty one). -/
def module_auto_install (db : DB) (module : String) (ai : AutoInstallArg) : DB :=
  let deps1 :=
    if db.hasAutoInstallRequired then
      match db.modules.find? (fun m => m.name == module) with
      | some mo =>
        db.deps.map (fun d =>
          if d.moduleId == mo.id then
            { d with autoInstallRequired :=
                (match ai with
                 | .bool true => true
                 | .bool false => false
                 | .list l => if l.isEmpty then false else l.contains d.name) }
          else d)
      | none => db.deps
    else db.deps
  { db with
    deps := deps1
    modules := db.modules.map (fun m =>
      if m.name == module then
        { m with autoInstall := (match ai with | .bool b => b | .list _ => true) }
      else m) }

/-- `new_module_dep(cr, module, new_dep)`: assert both modules exist, insert
the dependency row unless present (the `auto_install_required` column default
of the host schema is `TRUE`), and force-install the module when it is in an
installed state. -/
def new_module_dep (fuel : Nat) (db : DB) (module newDep : String) : Except String DB :=
  if !(hasModule db module) || !(hasModule db newDep) then .error "AssertionError"
  else
    let inserted := (db.modules.filter (fun m => m.name == module
        && !(db.deps.any (fun d => d.moduleId == m.id && d.name == newDep)))).map
      (fun m => (⟨m.id, newDep, true⟩ : DepRow))
    let db1 := { db with deps := db.deps ++ inserted }
    let modState :=
      match db1.modules.find? (fun m => m.name == module) with
      | some m => m.state
      | none => "n/a"
    if installedModuleStates.contains modState then
      .ok (force_install_module fuel db1 module none).1
    else .ok db1

/-- The `for dep in deps: new_module_dep(cr, module, dep)` loop of `new_module`. -/
def newModuleDeps (fuel : Nat) (module : String) : DB → List String → Except String DB
  | db, [] => .ok db
  | db, d :: ds =>
    match new_module_dep fuel db module d with
    | .error e => .error e
    | .ok db1 => newModuleDeps fuel module db1 ds

/-- The serial id the module INSERT would allocate (modelled as max + 1). -/
def freshModuleId (db : DB) : Nat := (db.modules.map (fun m => m.id)).foldr max 0 + 1

/-- The serial id the xmlid INSERT would allocate (modelled as max + 1). -/
def freshImdId (db : DB) : Nat := (db.imd.map (fun x => x.id)).foldr max 0 + 1

/-- `new_module(cr, module, deps, auto_install)`: assert the dependencies
exist, return at once when a row with the module name already exists, else
insert the module row (state `to install` when auto-installable with its
trigger modules installed), its `base.module_<name>` xmlid, its dependency
rows, and apply `module_auto_install`. -/
def new_module (fuel : Nat) (db : DB) (module : String) (deps : List String)
    (ai : AutoInstallArg) : Except String DB :=
  if !deps.isEmpty && deps.any (fun d => !(hasModule db d)) then .error "AssertionError"
  else if hasModule db module then .ok db
  else
    let state :=
      if !deps.isEmpty && aiTruthy ai && !(strStartsWith module "test_") then
        let toCheck := match ai with | .bool _ => deps | .list l => l
        if modules_installed db toCheck then "to install" else "uninstalled"
      else "uninstalled"
    let newId := freshModuleId db
    let db1 : DB := { db with modules := db.modules ++ [⟨newId, module, state, demoOfBase db, false⟩] }
    let db2 : DB := { db1 with imd := db1.imd ++
      [⟨freshImdId db1, "base", "module_" ++ module, "ir.module.module", newId, true⟩] }
    match newModuleDeps fuel module db2 deps with
    | .error e => .error e
    | .ok db3 => .ok (module_auto_install db3 module ai)

/-! ### Name-preservation lemmas for C10 -/

theorem hasModule_iff {db : DB} {n : String} :
    hasModule db n = true ↔ n ∈ db.modules.map (fun m => m.name) := by
  unfold hasModule
  rw [List.any_eq_true]
  constructor
  · rintro ⟨m, hm, he⟩
    rw [beq_iff_eq] at he
    exact List.mem_map.mpr ⟨m, hm, he⟩
  · intro hmem
    obtain ⟨m, hm, he⟩ := List.mem_map.mp hmem
    exact ⟨m, hm, by rw [beq_iff_eq]; exact he⟩

theorem module_auto_install_names (db : DB) (module : String) (ai : AutoInstallArg) :
    (module_auto_install db module ai).modules.map (fun m => m.name)
      = db.modules.map (fun m => m.name) := by
  simp only [module_auto_install]
  rw [List.map_map]
  apply List.map_congr_left
  intro m _
  simp only [Function.comp]
  split <;> rfl

theorem new_module_dep_names (fuel : Nat) (db db1 : DB) (module newDep : String)
    (h : new_module_dep fuel db module newDep = .ok db1) :
    db1.modules.map (fun m => m.name) = db.modules.map (fun m => m.name) := by
  simp only [new_module_dep] at h
  split at h
  · cases h
  · split at h
    · obtain rfl := Except.ok.inj h
      exact (fim_skeleton ..).1
    · obtain rfl := Except.ok.inj h
      rfl

theorem newModuleDeps_names (fuel : Nat) (module : String) :
    ∀ (ds : List String) (db db1 : DB),
    newModuleDeps fuel module db ds = .ok db1 →
    db1.modules.map (fun m => m.name) = db.modules.map (fun m => m.name) := by
  intro ds
  induction ds with
  | nil =>
    intro db db1 h
    obtain rfl := Except.ok.inj h
    rfl
  | cons d t ih =>
    intro db db1 h
    simp only [newModuleDeps] at h
    cases hstep : new_module_dep fuel db module d with
    | error e => rw [hstep] at h; cases h
    | ok dbm =>
      rw [hstep] at h
      exact (ih dbm db1 h).trans (new_module_dep_names fuel db dbm module d hstep)

/-- Case analysis of a successful `new_module` call: the dependency assertion
passed, and either the module row already existed (no-op) or the result's
module names are the input's plus the new module. -/
theorem new_module_shape (fuel : Nat) (db : DB) (module : String)
    (deps : List String) (ai : AutoInstallArg) (db' : DB)
    (h : new_module fuel db module deps ai = .ok db') :
    ((!deps.isEmpty && deps.any (fun d => !(hasModule db d))) = false)
    ∧ ((hasModule db module = true ∧ db' = db)
       ∨ (hasModule db module = false
          ∧ db'.modules.map (fun m => m.name)
              = db.modules.map (fun m => m.name) ++ [module])) := by
  simp only [new_module] at h
  split at h
  · cases h
  · rename_i hA
    have hA' : (!deps.isEmpty && deps.any (fun d => !(hasModule db d))) = false := by
      revert hA
      cases !deps.isEmpty && deps.any (fun d => !(hasModule db d)) <;> simp
    refine ⟨hA', ?_⟩
    split at h
    · rename_i hP
      exact Or.inl ⟨hP, (Except.ok.inj h).symm⟩
    · rename_i hP
      have hPf : hasModule db module = false := by
        revert hP
        cases hasModule db module <;> simp
      right
      refine ⟨hPf, ?_⟩
      split at h
      · cases h
      · rename_i db3 hnmd
        obtain rfl := Except.ok.inj h
        rw [module_auto_install_names]
        rw [newModuleDeps_names fuel module deps _ db3 hnmd]
        simp

/-- C10: `new_module` is idempotent.  When a row with the module name already
exists it returns without modifying anything, and after any successful call a
second call with the same arguments returns the state unchanged. -/
theorem c10_new_module_idempotent (fuel : Nat) (db : DB) (module : String)
    (deps : List String) (ai : AutoInstallArg) (db' : DB)
    (h : new_module fuel db module deps ai = .ok db') :
    (hasModule db module = true → db' = db)
    ∧ new_module fuel db' module deps ai = .ok db' := by
  obtain ⟨hA, hcases⟩ := new_module_shape fuel db module deps ai db' h
  rcases hcases with ⟨hP, rfl⟩ | ⟨hPf, hnames⟩
  · refine ⟨fun _ => rfl, ?_⟩
    simp only [new_module]
    rw [if_neg (by rw [hA]; exact Bool.false_ne_true), if_pos hP]
  · constructor
    · intro hcontra
      rw [hPf] at hcontra
      cases hcontra
    · have hpres' : hasModule db' module = true := by
        rw [hasModule_iff, hnames]
        exact List.mem_append_right _ (List.mem_singleton.mpr rfl)
      have hsub : ∀ n, hasModule db n = true → hasModule db' n = true := by
        intro n hn
        rw [hasModule_iff, hnames]
        exact List.mem_append_left _ (hasModule_iff.mp hn)
      have hA2 : (!deps.isEmpty && deps.any (fun d => !(hasModule db' d))) = false := by
        rcases Bool.and_eq_false_iff.mp hA with hempty | hany
        · rw [Bool.and_eq_false_iff]
          exact Or.inl hempty
        · rw [Bool.and_eq_false_iff]
          right
          rw [← Bool.not_eq_true, List.any_eq_true]
          rintro ⟨d, hd, hdneg⟩
          rw [Bool.not_eq_true'] at hdneg
          have : hasModule db d = true := by
            by_contra hcon
            have hfalse : hasModule db d = false := by
              revert hcon
              cases hasModule db d <;> simp
            have : deps.any (fun d => !(hasModule db d)) = true :=
              List.any_eq_true.mpr ⟨d, hd, by rw [hfalse]; rfl⟩
            rw [this] at hany
            cases hany
          rw [hsub d this] at hdneg
          cases hdneg
      refine ?_
      simp only [new_module]
      rw [if_neg (by rw [hA2]; exact Bool.false_ne_true), if_pos hpres']

/-- A one-module database for exercising `new_module`. -/
def newModuleExDB : DB :=
  { modules := [⟨1, "base", "installed", some false, false⟩]
    deps := [], imd := [], constraints := [], relations := [], translations := []
    views := [], hasViewKeyColumn := true, hasAutoInstallRequired := true }

/-- The state produced by `new_module` on `newModuleExDB`. -/
def newModuleExResult : DB :=
  { modules := [⟨1, "base", "installed", some false, false⟩,
                ⟨2, "mymod", "to install", some false, true⟩]
    deps := [⟨2, "base", true⟩]
    imd := [⟨1, "base", "module_mymod", "ir.module.module", 2, true⟩]
    constraints := [], relations := [], translations := []
    views := [], hasViewKeyColumn := true, hasAutoInstallRequired := true }

/-- Witness for C10 at a concrete database: creating `mymod` (auto-installed
on `base`) succeeds, and the second call with the same arguments is the
identity. -/
theorem c10_new_module_idempotent_witness :
    (hasModule newModuleExDB "mymod" = true → newModuleExResult = newModuleExDB)
    ∧ new_module 2 newModuleExResult "mymod" ["base"] (.bool true)
        = .ok newModuleExResult :=
  c10_new_module_idempotent 2 newModuleExDB "mymod" ["base"] (.bool true)
    newModuleExResult (by rfl)

/-! ## `merge_module` (claims C6, C9)

`merge_module(cr, old, into)` reads the ids of both modules, returns at once
(after a log line, with no data-modifying statement) when `old` has no row,
and otherwise moves constraints, relations, view keys, xmlids, translations
and dependencies before deleting `old`'s row, dependency rows and module
xmlid, force-installing `into` when `old` was in an installed state.
`remove_view` / `remove_menus` / `remove_record`, called on the xmlids that
could not be moved because `into` already owns the name, live outside `src`
and are modelled from the spec: removing a record deletes it (for views, its
`ir_ui_view` row) together with the external ids referencing it; the removals
are also returned as the `removed` event list. -/

/-- `_up` for `ir_model_constraint` / `ir_model_relation`: move module
`oldId`'s rows to `newId` unless a same-name row of `newId` exists, then
delete whatever still belongs to `oldId`. -/
def upNamed (rows : List NamedRow) (oldId newId : Nat) : List NamedRow :=
  (rows.map (fun x =>
    if x.module == oldId && !(rows.any (fun y => y.name == x.name && y.module == newId))
    then { x with module := newId } else x)).filter (fun x => !(x.module == oldId))

/-- The UPDATE half of `_up("data", old, into)`: move `old`'s xmlids to `into`
unless `into` already owns the name. -/
def upDataMove (imd : List IMDRow) (old into : String) : List IMDRow :=
  imd.map (fun x =>
    if x.module == old && !(imd.any (fun y => y.name == x.name && y.module == into))
    then { x with module := into } else x)

/-- The `(model, res_id)` pairs of `old`'s xmlids that could not be moved
(models `ir.model%` and `ir.module.module%` excluded), whose records the
source removes before deleting the rows. -/
def mergeLeftover (imd1 : List IMDRow) (old : String) : List (String × Nat) :=
  (imd1.filter (fun x => x.module == old
    && !(strStartsWith x.model "ir.model")
    && !(strStartsWith x.model "ir.module.module"))).map (fun x => (x.model, x.resId))

/-- Modelled from the spec: `remove_record`/`remove_view`/`remove_menus` (from
`.records`, outside `src`) remove the given records and the external ids
referencing them. -/
def removeRecordsImd (imd : List IMDRow) (pairs : List (String × Nat)) : List IMDRow :=
  imd.filter (fun x => !(pairs.contains (x.model, x.resId)))

/-- Modelled from the spec: removing an `ir.ui.view` record drops its row. -/
def removeRecordsViews (views : List ViewRow) (pairs : List (String × Nat)) : List ViewRow :=
  views.filter (fun v => !(pairs.contains ("ir.ui.view", v.id)))

/-- `_update_view_key(cr, old, new)`: when the `key` column exists, rewrite
`old.name` view keys to `new.name` following the view's xmlid in `old`. -/
def updateViewKey (hasKey : Bool) (views : List ViewRow) (imd : List IMDRow)
    (old new : String) : List ViewRow :=
  if !hasKey then views
  else
    views.map (fun v =>
      match imd.find? (fun x => x.model == "ir.ui.view" && x.resId == v.id
          && x.module == old && v.key == some (x.module ++ "." ++ x.name)) with
      | some x => { v with key := some (new ++ "." ++ x.name) }
      | none => v)

structure MergeOut where
  db : DB
  removed : List (String × Nat)
  forced : Option String
  deriving Repr, DecidableEq

/-- The `(model, res_id)` pairs whose records `_up("data", old, into)` removes:
the leftover xmlids of `old` after the move UPDATE. -/
def mergePairs (db : DB) (old into : String) : List (String × Nat) :=
  mergeLeftover (upDataMove db.imd old into) old

/-- The state `merge_module` reaches just before the conditional
force-install: constraints/relations moved (`_up`), view keys rewritten,
xmlids moved then the leftovers' records removed, remaining `old` xmlids and
the module xmlid deleted, translations moved, dependencies rewritten, and
`old`'s module and dependency rows deleted. -/
def mergeCore (db : DB) (old into : String) (mo mi : ModRow) (withoutDeps : Bool) : DB :=
  let pairs := mergePairs db old into
  { db with
    modules := db.modules.filter (fun m => !(m.name == old))
    deps := (if withoutDeps then db.deps
        else db.deps ++ (db.deps.filter (fun d => d.name == old
            && !(db.deps.any (fun o => o.moduleId == d.moduleId && o.name == into)))).map
          (fun d => (⟨d.moduleId, into, true⟩ : DepRow))).filter (fun d => !(d.name == old))
    imd := (((removeRecordsImd (upDataMove db.imd old into) pairs).filter
        (fun x => !(x.module == old))).filter
        (fun x => !(x.model == "ir.module.module" && x.resId == mo.id)))
    constraints := upNamed db.constraints mo.id mi.id
    relations := upNamed db.relations mo.id mi.id
    translations := db.translations.map (fun t =>
      if t.module == old then { t with module := into } else t)
    views := removeRecordsViews (updateViewKey db.hasViewKeyColumn db.views db.imd old into) pairs }

/-- `merge_module(cr, old, into, without_deps)`. -/
def merge_module (fuel : Nat) (db : DB) (old into : String) (withoutDeps : Bool) :
    Except String MergeOut :=
  match db.modules.find? (fun m => m.name == old) with
  | none => .ok ⟨db, [], none⟩
  | some mo =>
    match db.modules.find? (fun m => m.name == into) with
    | none => .error "KeyError"
    | some mi =>
      let db1 := mergeCore db old into mo mi withoutDeps
      if installedModuleStates.contains mo.state then
        .ok ⟨(force_install_module fuel db1 into none).1, mergePairs db old into, some into⟩
      else
        .ok ⟨db1, mergePairs db old into, none⟩

/-- C9: when module `old` has no `ir_module_module` row, `merge_module` is a
no-op on the database: it returns with the state unchanged, having removed no
record and force-installed nothing. -/
theorem c9_merge_module_missing_old_noop (fuel : Nat) (db : DB) (old into : String)
    (wd : Bool) (h : db.modules.find? (fun m => m.name == old) = none) :
    merge_module fuel db old into wd = .ok ⟨db, [], none⟩ := by
  unfold merge_module
  rw [h]

/-- Witness for C9: merging the unknown module `account_full_reconcile` into
`account` touches nothing. -/
theorem c9_merge_module_missing_old_noop_witness :
    merge_module 2
      { modules := [⟨1, "base", "installed", some false, false⟩,
                    ⟨7, "account", "installed", some false, false⟩]
        deps := [⟨7, "base", true⟩]
        imd := [⟨1, "base", "module_account", "ir.module.module", 7, true⟩]
        constraints := [⟨7, "account_move_name_uniq"⟩], relations := []
        translations := [⟨1, "account", "account.move,name"⟩]
        views := [], hasViewKeyColumn := true, hasAutoInstallRequired := true }
      "account_full_reconcile" "account" false
      = .ok ⟨{ modules := [⟨1, "base", "installed", some false, false⟩,
                           ⟨7, "account", "installed", some false, false⟩]
               deps := [⟨7, "base", true⟩]
               imd := [⟨1, "base", "module_account", "ir.module.module", 7, true⟩]
               constraints := [⟨7, "account_move_name_uniq"⟩], relations := []
               translations := [⟨1, "account", "account.move,name"⟩]
               views := [], hasViewKeyColumn := true, hasAutoInstallRequired := true },
             [], none⟩ :=
  c9_merge_module_missing_old_noop 2
    { modules := [⟨1, "base", "installed", some false, false⟩,
                  ⟨7, "account", "installed", some false, false⟩]
      deps := [⟨7, "base", true⟩]
      imd := [⟨1, "base", "module_account", "ir.module.module", 7, true⟩]
      constraints := [⟨7, "account_move_name_uniq"⟩], relations := []
      translations := [⟨1, "account", "account.move,name"⟩]
      views := [], hasViewKeyColumn := true, hasAutoInstallRequired := true }
    "account_full_reconcile" "account" false (by rfl)

/-! ### Lemmas about the `_up` move and the C6 theorem -/

theorem upNamed_no_old (rows : List NamedRow) (oldId newId : Nat) :
    (upNamed rows oldId newId).all (fun x => !(x.module == oldId)) = true := by
  rw [List.all_eq_true]
  intro x hx
  exact (List.mem_filter.mp hx).2

theorem upNamed_moved (rows : List NamedRow) (oldId newId : Nat) (hne : oldId ≠ newId) :
    rows.all (fun x => !(x.module == oldId)
      || (upNamed rows oldId newId).any (fun y => y.module == newId && y.name == x.name)) = true := by
  rw [List.all_eq_true]
  intro x hx
  rw [Bool.or_eq_true]
  by_cases hmod : (x.module == oldId) = true
  · right
    rw [List.any_eq_true]
    by_cases hdup : (rows.any (fun y => y.name == x.name && y.module == newId)) = true
    · rw [List.any_eq_true] at hdup
      obtain ⟨y, hymem, hycond⟩ := hdup
      rw [Bool.and_eq_true] at hycond
      obtain ⟨hyname, hymod⟩ := hycond
      have hynotold : (y.module == oldId) = false := by
        rw [beq_iff_eq] at hymod
        rw [beq_eq_false_iff_ne, hymod]
        exact fun hc => hne hc.symm
      have hcondf : (y.module == oldId
          && !(rows.any (fun z => z.name == y.name && z.module == newId))) = false := by
        rw [hynotold]
        rfl
      refine ⟨y, ?_, by rw [Bool.and_eq_true]; exact ⟨hymod, hyname⟩⟩
      rw [upNamed, List.mem_filter]
      refine ⟨?_, by rw [hynotold]; rfl⟩
      rw [List.mem_map]
      refine ⟨y, hymem, ?_⟩
      rw [if_neg]
      rw [hcondf]
      exact Bool.false_ne_true
    · have hdupf : (rows.any (fun y => y.name == x.name && y.module == newId)) = false := by
        revert hdup
        cases rows.any (fun y => y.name == x.name && y.module == newId) <;> simp
      refine ⟨{ x with module := newId }, ?_, ?_⟩
      · rw [upNamed, List.mem_filter]
        constructor
        · rw [List.mem_map]
          refine ⟨x, hx, ?_⟩
          rw [if_pos]
          rw [Bool.and_eq_true]
          exact ⟨hmod, by rw [hdupf]; rfl⟩
        · show (!((newId : Nat) == oldId)) = true
          rw [beq_eq_false_iff_ne.mpr (fun hc => hne hc.symm)]
          rfl
      · rw [Bool.and_eq_true]
        constructor
        · show ((newId : Nat) == newId) = true
          rw [beq_iff_eq]
        · show (x.name == x.name) = true
          rw [beq_iff_eq]
  · left
    simpa using hmod

/-- Transfer of a name-based `all` along equal name lists. -/
theorem all_names_eq {l1 l2 : List ModRow}
    (h : l1.map (fun m => m.name) = l2.map (fun m => m.name)) (p : String → Bool) :
    l1.all (fun m => p m.name) = l2.all (fun m => p m.name) := by
  have h1 : ∀ (l : List ModRow), l.all (fun m => p m.name) = (l.map (fun m => m.name)).all p := by
    intro l
    induction l with
    | nil => rfl
    | cons a t ih => simp [List.all_cons, ih]
  rw [h1, h1, h]

/-- C6: for `old` present in `ir_module_module` (and a well-formed database:
`into` present, distinct from `old`, module ids unique), `merge_module` moves
every `ir_model_constraint` / `ir_model_relation` / `ir_model_data` /
`ir_translation` reference of `old` to `into` — an entry whose name `into`
already owns is skipped and removed (its record too, reported in `removed`) —
deletes `old`'s module row, dependency rows and module xmlid, and
force-installs `into` exactly when `old`'s state was an installed one. -/
theorem c6_merge_module_moves_references (fuel : Nat) (db : DB) (old into : String)
    (mo mi : ModRow) (out : MergeOut)
    (hfo : db.modules.find? (fun m => m.name == old) = some mo)
    (hfi : db.modules.find? (fun m => m.name == into) = some mi)
    (hne : old ≠ into)
    (hIds : (db.modules.map (fun m => m.id)).Nodup)
    (h : merge_module fuel db old into false = .ok out) :
    (out.db.modules.all (fun m => !(m.name == old)) = true)
    ∧ (out.db.deps.all (fun d => !(d.name == old)) = true)
    ∧ (out.db.imd.all (fun x => !(x.module == old)) = true)
    ∧ (out.db.imd.all (fun x => !(x.model == "ir.module.module" && x.resId == mo.id)) = true)
    ∧ (out.db.constraints.all (fun x => !(x.module == mo.id)) = true)
    ∧ (out.db.relations.all (fun x => !(x.module == mo.id)) = true)
    ∧ (db.constraints.all (fun x => !(x.module == mo.id)
        || out.db.constraints.any (fun y => y.module == mi.id && y.name == x.name)) = true)
    ∧ (db.relations.all (fun x => !(x.module == mo.id)
        || out.db.relations.any (fun y => y.module == mi.id && y.name == x.name)) = true)
    ∧ (out.db.translations.all (fun t => !(t.module == old)) = true)
    ∧ (db.translations.all (fun t => !(t.module == old)
        || out.db.translations.contains { t with module := into }) = true)
    ∧ (db.imd.all (fun x => !(x.module == old)
        || (db.imd.any (fun y => y.name == x.name && y.module == into))
        || out.removed.contains (x.model, x.resId)
        || (x.model == "ir.module.module" && x.resId == mo.id)
        || out.db.imd.contains { x with module := into }) = true)
    ∧ out.forced = (if installedModuleStates.contains mo.state then some into else none) := by
  have hmoname : mo.name = old := by
    have := List.find?_some hfo
    rwa [beq_iff_eq] at this
  have hminame : mi.name = into := by
    have := List.find?_some hfi
    rwa [beq_iff_eq] at this
  have hidne : mo.id ≠ mi.id := by
    intro hc
    have hmomem := List.mem_of_find?_eq_some hfo
    have hmimem := List.mem_of_find?_eq_some hfi
    have heqrow := List.inj_on_of_nodup_map hIds hmomem hmimem hc
    apply hne
    rw [← hmoname, heqrow, hminame]
  have hio : (into == old) = false := by
    rw [beq_eq_false_iff_ne]
    exact fun hc => hne hc.symm
  rw [merge_module.eq_def] at h
  rw [hfo] at h
  simp only [] at h
  rw [hfi] at h
  simp only [] at h
  have hshape : SameSkeleton out.db (mergeCore db old into mo mi false)
      ∧ out.removed = mergePairs db old into
      ∧ out.forced = (if installedModuleStates.contains mo.state then some into else none) := by
    split at h
    · rename_i hinst
      obtain rfl := Except.ok.inj h
      exact ⟨fim_skeleton .., rfl, by rw [if_pos hinst]⟩
    · rename_i hinst
      obtain rfl := Except.ok.inj h
      exact ⟨sameSkeleton_refl _, rfl, by rw [if_neg hinst]⟩
  obtain ⟨⟨sn, sd, si, sc, sr, st, sv, _, _⟩, hrem, hforced⟩ := hshape
  have hcoreM : (mergeCore db old into mo mi false).modules
      = db.modules.filter (fun m => !(m.name == old)) := rfl
  have hcoreI : (mergeCore db old into mo mi false).imd
      = (((removeRecordsImd (upDataMove db.imd old into) (mergePairs db old into)).filter
          (fun x => !(x.module == old))).filter
          (fun x => !(x.model == "ir.module.module" && x.resId == mo.id))) := rfl
  have hcoreC : (mergeCore db old into mo mi false).constraints
      = upNamed db.constraints mo.id mi.id := rfl
  have hcoreR : (mergeCore db old into mo mi false).relations
      = upNamed db.relations mo.id mi.id := rfl
  have hcoreT : (mergeCore db old into mo mi false).translations
      = db.translations.map (fun t =>
          if t.module == old then { t with module := into } else t) := rfl
  refine ⟨?_, ?_, ?_, ?_, ?_, ?_, ?_, ?_, ?_, ?_, ?_, hforced⟩
  · rw [List.all_eq_true]
    intro m hm
    have hmn : m.name ∈ out.db.modules.map (fun m => m.name) := List.mem_map.mpr ⟨m, hm, rfl⟩
    rw [sn, hcoreM] at hmn
    obtain ⟨m', hm', he⟩ := List.mem_map.mp hmn
    have hkeep := (List.mem_filter.mp hm').2
    rw [← he]
    exact hkeep
  · rw [sd, List.all_eq_true]
    intro d hd
    exact (List.mem_filter.mp hd).2
  · rw [si, hcoreI, List.all_eq_true]
    intro x hx
    exact (List.mem_filter.mp (List.mem_filter.mp hx).1).2
  · rw [si, hcoreI, List.all_eq_true]
    intro x hx
    exact (List.mem_filter.mp hx).2
  · rw [sc, hcoreC]
    exact upNamed_no_old db.constraints mo.id mi.id
  · rw [sr, hcoreR]
    exact upNamed_no_old db.relations mo.id mi.id
  · rw [sc, hcoreC]
    exact upNamed_moved db.constraints mo.id mi.id hidne
  · rw [sr, hcoreR]
    exact upNamed_moved db.relations mo.id mi.id hidne
  · rw [st, hcoreT, List.all_eq_true]
    intro t ht
    obtain ⟨t0, ht0, he⟩ := List.mem_map.mp ht
    by_cases hc : (t0.module == old) = true
    · rw [if_pos hc] at he
      rw [← he]
      show (!(into == old)) = true
      rw [hio]
      rfl
    · rw [if_neg hc] at he
      rw [← he]
      simpa using hc
  · rw [List.all_eq_true]
    intro t ht
    rw [Bool.or_eq_true]
    by_cases hc : (t.module == old) = true
    · right
      rw [st, hcoreT]
      exact List.elem_iff.mpr (List.mem_map.mpr ⟨t, ht, by rw [if_pos hc]⟩)
    · left
      simpa using hc
  · rw [List.all_eq_true]
    intro x hx
    simp only [Bool.or_eq_true]
    by_cases h1 : (x.module == old) = true
    case neg =>
      exact Or.inl (Or.inl (Or.inl (Or.inl (by simpa using h1))))
    by_cases h2 : (db.imd.any (fun y => y.name == x.name && y.module == into)) = true
    case pos => exact Or.inl (Or.inl (Or.inl (Or.inr h2)))
    by_cases h3 : (out.removed.contains (x.model, x.resId)) = true
    case pos => exact Or.inl (Or.inl (Or.inr h3))
    by_cases h4 : (x.model == "ir.module.module" && x.resId == mo.id) = true
    case pos => exact Or.inl (Or.inr h4)
    refine Or.inr ?_
    have h2f : (db.imd.any (fun y => y.name == x.name && y.module == into)) = false := by
      revert h2
      cases db.imd.any (fun y => y.name == x.name && y.module == into) <;> simp
    have hstep1 : { x with module := into } ∈ upDataMove db.imd old into := by
      rw [upDataMove, List.mem_map]
      refine ⟨x, hx, ?_⟩
      rw [if_pos]
      rw [Bool.and_eq_true]
      exact ⟨h1, by rw [h2f]; rfl⟩
    have h3f : ((mergePairs db old into).contains (x.model, x.resId)) = false := by
      rw [hrem] at h3
      revert h3
      cases (mergePairs db old into).contains (x.model, x.resId) <;> simp
    have hstep2 : { x with module := into }
        ∈ removeRecordsImd (upDataMove db.imd old into) (mergePairs db old into) := by
      rw [removeRecordsImd, List.mem_filter]
      refine ⟨hstep1, ?_⟩
      show (!((mergePairs db old into).contains (x.model, x.resId))) = true
      rw [h3f]
      rfl
    have h4f : (x.model == "ir.module.module" && x.resId == mo.id) = false := by
      revert h4
      cases x.model == "ir.module.module" && x.resId == mo.id <;> simp
    rw [si, hcoreI]
    apply List.elem_iff.mpr
    rw [List.mem_filter]
    refine ⟨?_, ?_⟩
    · rw [List.mem_filter]
      refine ⟨hstep2, ?_⟩
      show (!(into == old)) = true
      rw [hio]
      rfl
    · show (!(x.model == "ir.module.module" && x.resId == mo.id)) = true
      rw [h4f]
      rfl

/-- A database for exercising `merge_module`: module `sale_old` owns a
constraint (one movable, one whose name `sale` already has), a relation,
xmlids (one movable, one whose name `sale` already owns, one view), a
translation and a reverse dependency. -/
def mergeExDB : DB :=
  { modules := [⟨1, "base", "installed", some false, false⟩,
                ⟨2, "sale_old", "installed", some false, false⟩,
                ⟨3, "sale", "installed", some false, false⟩]
    deps := [⟨2, "base", true⟩, ⟨1, "sale_old", true⟩]
    imd := [⟨1, "base", "module_sale_old", "ir.module.module", 2, true⟩,
            ⟨2, "sale_old", "rec_a", "res.groups", 21, false⟩,
            ⟨3, "sale_old", "rec_b", "res.groups", 22, false⟩,
            ⟨4, "sale", "rec_b", "res.groups", 30, false⟩,
            ⟨5, "sale_old", "view_x", "ir.ui.view", 40, false⟩]
    constraints := [⟨2, "c_uniq"⟩, ⟨3, "c_dup"⟩, ⟨2, "c_dup"⟩]
    relations := [⟨2, "rel_m2m"⟩]
    translations := [⟨1, "sale_old", "x"⟩, ⟨2, "other", "y"⟩]
    views := [⟨40, some "sale_old.view_x"⟩]
    hasViewKeyColumn := true, hasAutoInstallRequired := true }

/-- The result of merging `sale_old` into `sale` on `mergeExDB`. -/
def mergeExOut : MergeOut :=
  { db := { modules := [⟨1, "base", "installed", some false, false⟩,
                        ⟨3, "sale", "installed", some false, false⟩]
            deps := [⟨2, "base", true⟩, ⟨1, "sale", true⟩]
            imd := [⟨2, "sale", "rec_a", "res.groups", 21, false⟩,
                    ⟨4, "sale", "rec_b", "res.groups", 30, false⟩,
                    ⟨5, "sale", "view_x", "ir.ui.view", 40, false⟩]
            constraints := [⟨3, "c_uniq"⟩, ⟨3, "c_dup"⟩]
            relations := [⟨3, "rel_m2m"⟩]
            translations := [⟨1, "sale", "x"⟩, ⟨2, "other", "y"⟩]
            views := [⟨40, some "sale.view_x"⟩]
            hasViewKeyColumn := true, hasAutoInstallRequired := true }
    removed := [("res.groups", 22)]
    forced := some "sale" }

/-- Witness for C6 on `mergeExDB`. -/
theorem c6_merge_module_moves_references_witness :
    (mergeExOut.db.modules.all (fun m => !(m.name == "sale_old")) = true)
    ∧ (mergeExOut.db.deps.all (fun d => !(d.name == "sale_old")) = true)
    ∧ (mergeExOut.db.imd.all (fun x => !(x.module == "sale_old")) = true)
    ∧ (mergeExOut.db.imd.all (fun x =>
        !(x.model == "ir.module.module" && x.resId == (2 : Nat))) = true)
    ∧ (mergeExOut.db.constraints.all (fun x => !(x.module == (2 : Nat))) = true)
    ∧ (mergeExOut.db.relations.all (fun x => !(x.module == (2 : Nat))) = true)
    ∧ (mergeExDB.constraints.all (fun x => !(x.module == (2 : Nat))
        || mergeExOut.db.constraints.any (fun y =>
            y.module == (3 : Nat) && y.name == x.name)) = true)
    ∧ (mergeExDB.relations.all (fun x => !(x.module == (2 : Nat))
        || mergeExOut.db.relations.any (fun y =>
            y.module == (3 : Nat) && y.name == x.name)) = true)
    ∧ (mergeExOut.db.translations.all (fun t => !(t.module == "sale_old")) = true)
    ∧ (mergeExDB.translations.all (fun t => !(t.module == "sale_old")
        || mergeExOut.db.translations.contains { t with module := "sale" }) = true)
    ∧ (mergeExDB.imd.all (fun x => !(x.module == "sale_old")
        || (mergeExDB.imd.any (fun y => y.name == x.name && y.module == "sale"))
        || mergeExOut.removed.contains (x.model, x.resId)
        || (x.model == "ir.module.module" && x.resId == (2 : Nat))
        || mergeExOut.db.imd.contains { x with module := "sale" }) = true)
    ∧ mergeExOut.forced
        = (if installedModuleStates.contains "installed" then some "sale" else none) :=
  c6_merge_module_moves_references 2 mergeExDB "sale_old" "sale"
    ⟨2, "sale_old", "installed", some false, false⟩
    ⟨3, "sale", "installed", some false, false⟩
    mergeExOut (by rfl) (by rfl) (by decide) (by decide) (by rfl)
